import Mathlib

/-!
Verification development for the quai-manager merge-mining coordinator
(manager/main.go).  The Go code is shallowly embedded: pure functions become
Lean functions, the event loops become step functions on an explicit manager
state, Go pointers to big integers become an (address, value) pair so that
both Go pointer equality and numeric equality are expressible, and fallible
or panicking code returns Option.
-/

namespace QuaiManager

/-- GoPtr models a Go pointer to a big.Int (or similar boxed value):
none is the nil pointer, some (a, v) is a pointer with address a to value v. -/
abbrev GoPtr (α : Type) := Option (Nat × α)

/-- ptrEq models the Go == operator on two pointers: it compares nil-ness and
addresses only (two live pointers are == exactly when they are the same
object, in which case their values coincide as well). -/
def ptrEq {α : Type} : GoPtr α → GoPtr α → Bool
  | none, none => true
  | some (a, _), some (b, _) => a == b
  | _, _ => false

/-- ptrVal extracts the pointed-to value, if the pointer is non-nil. -/
def ptrVal {α : Type} : GoPtr α → Option α
  | none => none
  | some (_, v) => some v

/-- Header models types.Header as used by the manager: fourteen per-tier
fields indexed by the tier (0 = PRIME, 1 = REGION, 2 = ZONE), a single time,
a single location (a byte slice) and a single nonce (the eight nonce bytes
read as one number; the empty types.BlockNonce is 0).  Hashes, addresses and
blooms are abstracted to Nat; big.Int pointers are GoPtr Int. -/
structure Header where
  parentHash : Fin 3 → Nat
  uncleHash : Fin 3 → Nat
  number : Fin 3 → GoPtr Int
  extra : Fin 3 → List Nat
  baseFee : Fin 3 → GoPtr Int
  gasLimit : Fin 3 → Nat
  gasUsed : Fin 3 → Nat
  txHash : Fin 3 → Nat
  receiptHash : Fin 3 → Nat
  root : Fin 3 → Nat
  difficulty : Fin 3 → GoPtr Int
  networkDifficulty : Fin 3 → GoPtr Int
  coinbase : Fin 3 → Nat
  bloom : Fin 3 → Nat
  time : Nat
  location : List Nat
  nonce : Nat
  deriving DecidableEq

/-- emptyNonce models types.BlockNonce zero value. -/
def emptyNonce : Nat := 0

/-- updateCombinedHeader (manager/main.go lines 668-691): under the manager
lock, take the maximum of the two times, copy every per-tier field of the
incoming header into slot i of the combined header, set the time to that
maximum and the location to the manager location.  The combined nonce is not
touched. -/
def updateCombinedHeader (ch : Header) (header : Header) (i : Fin 3)
    (loc : List Nat) : Header :=
  let time := if header.time ≤ ch.time then ch.time else header.time
  { ch with
    parentHash := Function.update ch.parentHash i (header.parentHash i)
    uncleHash := Function.update ch.uncleHash i (header.uncleHash i)
    number := Function.update ch.number i (header.number i)
    extra := Function.update ch.extra i (header.extra i)
    baseFee := Function.update ch.baseFee i (header.baseFee i)
    gasLimit := Function.update ch.gasLimit i (header.gasLimit i)
    gasUsed := Function.update ch.gasUsed i (header.gasUsed i)
    txHash := Function.update ch.txHash i (header.txHash i)
    receiptHash := Function.update ch.receiptHash i (header.receiptHash i)
    root := Function.update ch.root i (header.root i)
    difficulty := Function.update ch.difficulty i (header.difficulty i)
    networkDifficulty :=
      Function.update ch.networkDifficulty i (header.networkDifficulty i)
    coinbase := Function.update ch.coinbase i (header.coinbase i)
    bloom := Function.update ch.bloom i (header.bloom i)
    time := time
    location := loc }

/-- ReceiptBlock models types.ReceiptBlock: a header plus body (transactions,
uncles) plus receipts; the body payloads are abstracted to opaque ids. -/
structure ReceiptBlock where
  header : Header
  transactions : List Nat
  uncles : List Nat
  receipts : List Nat
  deriving DecidableEq

/-- MState is the shared manager state touched by the embedded loops: the
combined header, the three pending-block slots, the current location bytes,
and the availability booleans of the client registry.  Availability is kept
as total maps on Nat mirroring the fixed length-3 Go arrays; indices outside
0..2 are never produced by the in-range location bytes the coordinator uses
(in Go they would panic with an index-out-of-range). -/
structure MState where
  combinedHeader : Header
  pendingBlocks : Fin 3 → Option ReceiptBlock
  location : List Nat
  primeAvailable : Bool
  regionsAvailable : Nat → Bool
  zonesAvailable : Nat → Nat → Bool

/-- byteSub1 models the Go byte expression b - 1: subtraction on an 8-bit
unsigned value, wrapping at 0.  For the 1-based location bytes 1..3 this is
the plain predecessor; for the byte 0 it yields 255, which like Go never
compares equal to a valid 0-based index (the int expression b - 1 = -1 in
the source compares unequal to every loop index as well, and both forms are
out of range as an array index). -/
def byteSub1 (b : Nat) : Nat := (b + 255) % 256

/-- loopGlobalBlockStep (manager/main.go lines 696-731): one delivery of a
pending block for tier i.  The local header copy taken by Header() is fed to
updateCombinedHeader, the block is stored in the pending slot, and then the
NONCE OF THE LOCAL COPY is set to the empty nonce (header.Nonce =
types.BlockNonce in the source).  The mutated local copy is returned as the
second component; the combined header's own nonce field is never assigned. -/
def loopGlobalBlockStep (s : MState) (i : Fin 3) (block : ReceiptBlock) :
    MState × Header :=
  let header := block.header
  let s1 := { s with
    combinedHeader := updateCombinedHeader s.combinedHeader header i s.location
    pendingBlocks := Function.update s.pendingBlocks i (some block) }
  (s1, { header with nonce := emptyNonce })

/-- headerNullCheck (manager/main.go lines 734-749): returns the first tier
whose combined Number slot is the nil pointer (the source logs that tier and
returns a non-nil error), or none when all three slots are non-nil (the
source returns a nil error). -/
def headerNullCheck (ch : Header) : Option (Fin 3) :=
  if (ch.number 0).isNone then some 0
  else if (ch.number 1).isNone then some 1
  else if (ch.number 2).isNone then some 2
  else none

/-- MiningEv is one observable action of the mining driver loop body. -/
inductive MiningEv where
  | interrupt
  | newStopChannel
  | seal (h : Header)
  deriving DecidableEq

/-- miningLoopStep (manager/main.go lines 752-786): on a header received from
the updated-headers channel the driver interrupts the in-flight sealing job,
creates a fresh stop channel, briefly takes and releases the manager lock,
and calls engine.SealHeader exactly when headerNullCheck on the combined
header reports no missing tier. -/
def miningLoopStep (s : MState) (header : Header) : List MiningEv :=
  [MiningEv.interrupt, MiningEv.newStopChannel] ++
    (match headerNullCheck s.combinedHeader with
     | none => [MiningEv.seal header]
     | some _ => [])

/-- exponentialBackoffCeilingSecs (manager/main.go line 93). -/
def exponentialBackoffCeilingSecs : Int := 14400

/-- floatDelayFloor is the exact value that math.Floor((math.Pow(2,
attempts) - 1) * 0.5) computes in float64.  math.Pow(2, n) is exactly 2 to
the n for every n below 1024.  For n up to 53 the subtraction and the
halving are both exact, so the floor is 2 to the n minus 1, halved and
rounded down.  From n = 54 on the subtraction rounds 2 to the n minus 1
back up to 2 to the n (round to nearest, ties to even, against a lower
neighbour at least two away), the halving is exact and the floor leaves 2
to the (n - 1).  For n at or above 1024 the power is infinite; the value
here is then also above the int64 range, so the conversion below takes the
same out-of-range branch either way. -/
def floatDelayFloor (attempts : Nat) : Int :=
  if attempts ≤ 53 then ((2 : Int) ^ attempts - 1) / 2
  else 2 ^ (attempts - 1)

/-- maxInt64 is the largest int64 value. -/
def maxInt64 : Int := 2 ^ 63 - 1

/-- int64OfNonnegFloat models the Go conversion int64(v) applied to a
nonnegative float64 value: the identity while the value fits in int64, and
an implementation-dependent int64 result on overflow (the Go specification
leaves the out-of-range case open; the overflow parameter stands for the
value the running implementation produces). -/
def int64OfNonnegFloat (overflow : Int) (v : Int) : Int :=
  if v ≤ maxInt64 then v else overflow

/-- amd64OverflowInt64 is the result of an out-of-range float64 to int64
conversion on amd64 (cvttsd2si): math.MinInt64. -/
def amd64OverflowInt64 : Int := -(2 ^ 63)

/-- delaySecs (manager/main.go lines 134-137 and 642-645): the backoff delay
for a given attempt counter,
int64(math.Floor((math.Pow(2, float64(attempts)) - 1) * 0.5)) clamped to the
ceiling.  The float64 computation is embedded exactly through
floatDelayFloor and the int64 conversion through int64OfNonnegFloat,
parameterized by the implementation-dependent overflow value.  Note the
clamp compares with the Go greater-than, so a negative converted value
passes through unclamped. -/
def delaySecs (overflow : Int) (attempts : Nat) : Int :=
  let d := int64OfNonnegFloat overflow (floatDelayFloor attempts)
  if d > exponentialBackoffCeilingSecs then exponentialBackoffCeilingSecs else d

/-- backoffAttempts (manager/main.go lines 111-113, 131-132 and 631-633,
639-641): the attempt counter is reset to zero when twelve hours have passed
since the last iteration, and is then incremented for the current attempt. -/
def backoffAttempts (attempts : Nat) (twelveHoursElapsed : Bool) : Nat :=
  (if twelveHoursElapsed then 0 else attempts) + 1

/-- FetchRes is one GetPendingBlock response: the returned block pointer and
whether the accompanying error was non-nil. -/
structure FetchRes where
  block : Option ReceiptBlock
  err : Bool
  deriving DecidableEq

/-- FetchOutcome is the observable outcome of one fetchPendingBlocks run:
either a block is delivered to the tier channel or the backoff retry loop is
entered; the flag records whether the single stale refetch happened. -/
inductive FetchOutcome where
  | deliver (rb : ReceiptBlock) (refetched : Bool)
  | backoff (refetched : Bool)
  deriving DecidableEq

/-- fetchRefetched reads the refetch flag of an outcome. -/
def fetchRefetched : FetchOutcome → Bool
  | FetchOutcome.deliver _ f => f
  | FetchOutcome.backoff f => f

/-- staleCheck (manager/main.go line 608): receiptBlock != nil and
receiptBlock.Header().Number[sliceIndex] == m.combinedHeader.Number[sliceIndex]
and err == nil.  The Number slots are pointers to big.Int, so the Go ==
here is POINTER equality (same object, or both nil), not numeric equality. -/
def staleCheck (ch : Header) (i : Fin 3) (r : FetchRes) : Bool :=
  match r.block with
  | some rb => ptrEq (rb.header.number i) (ch.number i) && !r.err
  | none => false

/-- fetchPendingBlocks (manager/main.go lines 600-664), decision structure:
r1 is the first GetPendingBlock response; when the stale check fires the
source refetches exactly once and r2 replaces r1; the backoff retry loop is
entered exactly when the examined response is errored or nil, and otherwise
the block is sent on the tier channel. -/
def fetchPendingBlocks (ch : Header) (i : Fin 3) (r1 r2 : FetchRes) :
    FetchOutcome :=
  let refetched := staleCheck ch i r1
  let r := if refetched then r2 else r1
  match r.block, r.err with
  | some rb, false => FetchOutcome.deliver rb refetched
  | _, _ => FetchOutcome.backoff refetched

/-- initialCombinedHeader (manager/main.go lines 206-222): the combined
header allocated at startup; every slice is allocated with Go zero values,
so in particular every Number slot is the nil pointer and the nonce is the
empty nonce. -/
def initialCombinedHeader : Header where
  parentHash := fun _ => 0
  uncleHash := fun _ => 0
  number := fun _ => none
  extra := fun _ => []
  baseFee := fun _ => none
  gasLimit := fun _ => 0
  gasUsed := fun _ => 0
  txHash := fun _ => 0
  receiptHash := fun _ => 0
  root := fun _ => 0
  difficulty := fun _ => none
  networkDifficulty := fun _ => none
  coinbase := fun _ => 0
  bloom := fun _ => 0
  time := 0
  location := []
  nonce := 0

/-- fullHeader is a concrete header with all three Number slots non-nil,
used as input for the concrete instances below. -/
def fullHeader : Header :=
  { initialCombinedHeader with
    number := fun i => some (i.val + 1, 7)
    time := 5
    location := [1, 1] }

/-- sampleReceiptBlock is a concrete pending block built over fullHeader. -/
def sampleReceiptBlock : ReceiptBlock where
  header := fullHeader
  transactions := [11]
  uncles := []
  receipts := [21]

/-- nonceOneState is a manager state whose combined header carries a non-empty
nonce, exhibiting that loopGlobalBlock does not clear it. -/
def nonceOneState : MState where
  combinedHeader := { initialCombinedHeader with nonce := 1 }
  pendingBlocks := fun _ => none
  location := [1, 1]
  primeAvailable := true
  regionsAvailable := fun _ => true
  zonesAvailable := fun _ _ => true

/-- Node identifies one RPC client of the registry by its position: the prime
client, a region client, or a zone client (0-based indices). -/
inductive Node where
  | prime
  | region (i : Nat)
  | zone (i j : Nat)
  deriving DecidableEq

/-- Send is one outbound dispatch of the result loop: an external-block send
annotated with the mined context, or a sealed mined-block send. -/
inductive Send where
  | extBlock (target : Node) (minedCtx : Nat)
  | minedBlock (target : Node)
  deriving DecidableEq

/-- Send.isExt recognizes Phase-A external-block sends. -/
def Send.isExt : Send → Bool
  | Send.extBlock _ _ => true
  | Send.minedBlock _ => false

/-- Send.isMined recognizes Phase-B sealed-block sends. -/
def Send.isMined : Send → Bool
  | Send.extBlock _ _ => false
  | Send.minedBlock _ => true

/-- allChainsOnline (manager/main.go lines 894-911): checkConnection on the
prime client, then on every region client, then on every zone client; the
result is false as soon as any of those connection checks fails.  The
connection oracle conn gives the outcome of checkConnection per node. -/
def allChainsOnline (conn : Node → Bool) : Bool :=
  conn Node.prime &&
    ((List.range 3).all fun i => conn (Node.region i)) &&
    ((List.range 3).all fun i =>
      (List.range 3).all fun j => conn (Node.zone i j))

/-- SendClientsExtBlock (manager/main.go lines 925-960): the external-block
fan-out for a body mined at a given tier.  A nil or empty block location
returns immediately with no sends.  Otherwise each requested external
context receives one send on the mining-slice node of that tier when that
node is available, and afterwards every region node and every zone node
other than the mining slice receives one send.  Each send is annotated with
the mined context (the big.NewInt argument); receipts payloads are not
tracked.  The source compares the mining region and zone with int
arithmetic, which byteSub1 decides identically for every byte value. -/
def SendClientsExtBlock (s : MState) (mined : Nat) (externalContexts : List Nat)
    (blockLocation : List Nat) : List Send :=
  if blockLocation = [] then []
  else
    let bl0 := byteSub1 (blockLocation.getD 0 0)
    let bl1 := byteSub1 (blockLocation.getD 1 0)
    let part1 := externalContexts.flatMap fun ec =>
      (if ec == 0 && s.primeAvailable then
        [Send.extBlock Node.prime mined] else []) ++
      (if ec == 1 && s.regionsAvailable bl0 then
        [Send.extBlock (Node.region bl0) mined] else []) ++
      (if ec == 2 && s.zonesAvailable bl0 bl1 then
        [Send.extBlock (Node.zone bl0 bl1) mined] else [])
    let part2 := (List.range 3).flatMap fun i =>
      if bl0 == i then [] else [Send.extBlock (Node.region i) mined]
    let part3 := (List.range 3).flatMap fun i =>
      (List.range 3).flatMap fun j =>
        if bl0 == i && bl1 == j then []
        else [Send.extBlock (Node.zone i j) mined]
    part1 ++ part2 ++ part3

/-- SendClientsMinedExtBlock (manager/main.go lines 914-921): guards on the
pending block of the mined tier being non-nil and sends nothing when it is
nil.  The block handed to SendClientsExtBlock is built from the sealed
header, so the block location examined there is the sealed header's. -/
def SendClientsMinedExtBlock (s : MState) (mined : Fin 3)
    (externalContexts : List Nat) (header : Header) : List Send :=
  match s.pendingBlocks mined with
  | some _ => SendClientsExtBlock s mined.val externalContexts header.location
  | none => []

/-- SendMinedBlock (manager/main.go lines 963-979): reads the pending block
of the mined tier and dereferences it (Header(), Transactions(), Uncles())
BEFORE any nil check; with a nil pending slot this is a nil-pointer
dereference, modelled as none.  The later block != nil test is always true
because types.NewBlockWithHeader never returns nil.  On a non-nil slot
exactly one sealed send goes to the mining node of the current location for
that tier. -/
def SendMinedBlock (s : MState) (mined : Fin 3) (header : Header) :
    Option (List Send) :=
  match s.pendingBlocks mined with
  | none => none
  | some _ =>
    let l0 := byteSub1 (s.location.getD 0 0)
    let l1 := byteSub1 (s.location.getD 1 0)
    some (if mined = 0 then [Send.minedBlock Node.prime]
      else if mined = 1 then [Send.minedBlock (Node.region l0)]
      else [Send.minedBlock (Node.zone l0 l1)])

/-- HeaderBundle models types.HeaderBundle: a sealed header together with
the strongest context whose difficulty it satisfies (an int in the source;
the result loop compares it with 0, 1 and 2). -/
structure HeaderBundle where
  context : Nat
  header : Header

/-- DispatchTrace is the observable behaviour of one result-loop iteration
after the coordinator mutex has been acquired: groups lists the
WaitGroup-joined batches of concurrently spawned dispatches, executed
strictly in order with a wg.Wait barrier completing each batch before the
next starts; unlocked records whether m.lock.Unlock() is reached at the end
(the skip path continues without ever releasing the mutex). -/
structure DispatchTrace where
  groups : List (List Send)
  unlocked : Bool

/-- resultLoopStep (manager/main.go lines 814-890): processing of one bundle
taken from the result channel.  The mutex is acquired first; if any chain is
offline the solution is skipped with no dispatch at all (and the continue
skips the Unlock).  Otherwise the fan-out keyed on the bundle context and
gated on that context's Number slot runs Phase A (the
SendClientsMinedExtBlock goroutines, joined by wg.Wait), then Phase B (the
SendMinedBlock goroutines, joined), then releases the mutex.  A nil pending
slot makes a Phase-B goroutine dereference nil, modelled as none.  The loop
never writes the shared manager state, which is returned unchanged. -/
def resultLoopStep (s : MState) (conn : Node → Bool) (bundle : HeaderBundle) :
    Option (MState × DispatchTrace) :=
  if !allChainsOnline conn then some (s, ⟨[], false⟩)
  else if bundle.context = 0 then
    if (bundle.header.number 0).isSome then
      match SendMinedBlock s 2 bundle.header, SendMinedBlock s 1 bundle.header,
          SendMinedBlock s 0 bundle.header with
      | some b2, some b1, some b0 =>
        some (s, ⟨[SendClientsMinedExtBlock s 0 [1, 2] bundle.header ++
          SendClientsMinedExtBlock s 1 [0, 2] bundle.header ++
          SendClientsMinedExtBlock s 2 [0, 1] bundle.header,
          b2 ++ b1 ++ b0], true⟩)
      | _, _, _ => none
    else some (s, ⟨[], true⟩)
  else if bundle.context = 1 then
    if (bundle.header.number 1).isSome then
      match SendMinedBlock s 2 bundle.header, SendMinedBlock s 1 bundle.header with
      | some b2, some b1 =>
        some (s, ⟨[SendClientsMinedExtBlock s 1 [0, 2] bundle.header ++
          SendClientsMinedExtBlock s 2 [0, 1] bundle.header,
          b2 ++ b1], true⟩)
      | _, _ => none
    else some (s, ⟨[], true⟩)
  else if bundle.context = 2 then
    if (bundle.header.number 2).isSome then
      match SendMinedBlock s 2 bundle.header with
      | some b2 =>
        some (s, ⟨[SendClientsMinedExtBlock s 2 [0, 1] bundle.header, b2], true⟩)
      | _ => none
    else some (s, ⟨[], true⟩)
  else some (s, ⟨[], true⟩)

/-- registryChain holds for the chains whose connection allChainsOnline
checks: the prime chain, the three regions, and the nine zones. -/
def registryChain (n : Node) : Prop :=
  n = Node.prime ∨ (∃ i, i < 3 ∧ n = Node.region i) ∨
    (∃ i j, i < 3 ∧ j < 3 ∧ n = Node.zone i j)

/-- baseState is a concrete fully-populated manager state. -/
def baseState : MState where
  combinedHeader := fullHeader
  pendingBlocks := fun _ => some sampleReceiptBlock
  location := [1, 1]
  primeAvailable := true
  regionsAvailable := fun _ => true
  zonesAvailable := fun _ _ => true

/-- emptyPendingState is baseState with all pending slots nil. -/
def emptyPendingState : MState :=
  { baseState with pendingBlocks := fun _ => none }

/-- onlineConn reports every chain reachable. -/
def onlineConn : Node → Bool := fun _ => true

/-- offlineConn reports every chain reachable except zone (1, 2). -/
def offlineConn : Node → Bool := fun n =>
  if n = Node.zone 1 2 then false else true

/-- sampleBundle is a concrete sealed solution at context 2. -/
def sampleBundle : HeaderBundle where
  context := 2
  header := fullHeader

/-- ctx2PhaseA is the Phase-A fan-out that resultLoopStep produces for
sampleBundle in baseState: external-block sends annotated with mined
context 2 to the prime node, the mining region node, the two other region
nodes and the eight non-mining zone nodes. -/
def ctx2PhaseA : List Send :=
  [Send.extBlock Node.prime 2, Send.extBlock (Node.region 0) 2,
   Send.extBlock (Node.region 1) 2, Send.extBlock (Node.region 2) 2,
   Send.extBlock (Node.zone 0 1) 2, Send.extBlock (Node.zone 0 2) 2,
   Send.extBlock (Node.zone 1 0) 2, Send.extBlock (Node.zone 1 1) 2,
   Send.extBlock (Node.zone 1 2) 2, Send.extBlock (Node.zone 2 0) 2,
   Send.extBlock (Node.zone 2 1) 2, Send.extBlock (Node.zone 2 2) 2]

/-- ctx2Trace is the dispatch trace of sampleBundle in baseState: the
Phase-A group, then the Phase-B sealed send to the mining zone, with the
mutex released at the end. -/
def ctx2Trace : DispatchTrace where
  groups := [ctx2PhaseA, [Send.minedBlock (Node.zone 0 0)]]
  unlocked := true

/-- staleCHeader is a combined header whose tier-0 Number points to a big.Int
object at address 1 holding the value 5. -/
def staleCHeader : Header :=
  { initialCombinedHeader with
    number := fun i => if i = 0 then some (1, 5) else some (10 + i.val, 3) }

/-- valueStaleBlock is a pending block whose tier-0 Number is a DIFFERENT
big.Int object (address 2) holding the SAME value 5 as staleCHeader's
slot 0, as a fresh RPC decode produces. -/
def valueStaleBlock : ReceiptBlock where
  header :=
    { fullHeader with
      number := fun i => if i = 0 then some (2, 5) else some (20 + i.val, 4) }
  transactions := []
  uncles := []
  receipts := []

/-- ptrStaleBlock is a pending block whose tier-0 Number is the SAME big.Int
object (address 1) as staleCHeader's slot 0. -/
def ptrStaleBlock : ReceiptBlock where
  header :=
    { fullHeader with
      number := fun i => if i = 0 then some (1, 5) else some (30 + i.val, 6) }
  transactions := []
  uncles := []
  receipts := []

/-- freshRes is a fresh, successful second GetPendingBlock response. -/
def freshRes : FetchRes where
  block := some sampleReceiptBlock
  err := false

/-- MissingExternalBlock models core.MissingExternalBlock: the requested
hash, the tier context of the missing block, and its location bytes. -/
structure MissingExternalBlock where
  hash : Nat
  context : Fin 3
  location : List Nat

/-- MissingLookup gives the outcomes of the lookups the responder may issue
for one request: the owner chain's BlockByHash result, its GetBlockReceipts
result and error flag, and the external-block results from PRIME and from
the REGION of the request location.  Blocks are opaque ids. -/
structure MissingLookup where
  ownerBlock : Option Nat
  ownerReceiptBlock : Option Nat
  ownerReceiptsErr : Bool
  primeExt : Option Nat
  regionExt : Option Nat
  deriving DecidableEq

/-- RespEv is one observable action of the missing-external-block responder:
the three resolution lookups, the receipts lookup, the reply back to the
subscribed node, or the nil dereference of a nil receipt block. -/
inductive RespEv where
  | lookupOwner (n : Node) (hash : Nat)
  | lookupReceipts (n : Node) (hash : Nat)
  | lookupPrimeExt (hash : Nat) (ctx : Nat)
  | lookupRegionExt (r : Nat) (hash : Nat) (ctx : Nat)
  | reply (dest : Node) (ctx : Nat)
  | nilDeref
  deriving DecidableEq

/-- RespEv.isProbe recognizes the three resolution lookups of the claim:
BlockByHash on the owner, then the PRIME and REGION external-block calls. -/
def RespEv.isProbe : RespEv → Bool
  | RespEv.lookupOwner _ _ => true
  | RespEv.lookupPrimeExt _ _ => true
  | RespEv.lookupRegionExt _ _ _ => true
  | _ => false

/-- RespEv.isReply recognizes the SendExternalBlock reply. -/
def RespEv.isReply : RespEv → Bool
  | RespEv.reply _ _ => true
  | _ => false

/-- ownerNode (manager/main.go lines 525-539): the client owning the
requested (context, location): the prime client, the region client at
location byte 0 minus one, or the zone client at both location bytes minus
one. -/
def ownerNode (ctx : Fin 3) (loc : List Nat) : Node :=
  if ctx = 0 then Node.prime
  else if ctx = 1 then Node.region (byteSub1 (loc.getD 0 0))
  else Node.zone (byteSub1 (loc.getD 0 0)) (byteSub1 (loc.getD 1 0))

/-- requesterNode (manager/main.go lines 581-588): the client this
responder subscription serves, recovered from its chain byte pair:
(0,0) is prime, (r,0) a region, anything else a zone. -/
def requesterNode (chain : List Nat) : Node :=
  let c0 := chain.getD 0 0
  let c1 := chain.getD 1 0
  if c0 == 0 && c1 == 0 then Node.prime
  else if c0 != 0 && c1 == 0 then Node.region (byteSub1 c0)
  else Node.zone (byteSub1 c0) (byteSub1 c1)

/-- subscribeMissingExternalBlockClient (manager/main.go lines 512-596),
handling of one request: look the hash up on the owner chain; on a hit fetch
its receipts (an errored receipts fetch drops the request, a nil receipt
block with no error dereferences nil); on a miss ask PRIME for the external
block, then the REGION of the request location, reconstructing on the first
hit; when all three lookups miss, log and drop without retrying.  Any
obtained block is sent back to the subscribed node with exactly one
SendExternalBlock annotated with the request context. -/
def subscribeMissingExternalBlockClient (chain : List Nat)
    (req : MissingExternalBlock) (lk : MissingLookup) : List RespEv :=
  RespEv.lookupOwner (ownerNode req.context req.location) req.hash ::
    (match lk.ownerBlock with
     | some _ =>
       RespEv.lookupReceipts (ownerNode req.context req.location) req.hash ::
         (if lk.ownerReceiptsErr then []
          else match lk.ownerReceiptBlock with
            | none => [RespEv.nilDeref]
            | some _ => [RespEv.reply (requesterNode chain) req.context.val])
     | none =>
       RespEv.lookupPrimeExt req.hash req.context.val ::
         (match lk.primeExt with
          | some _ => [RespEv.reply (requesterNode chain) req.context.val]
          | none =>
            RespEv.lookupRegionExt (byteSub1 (req.location.getD 0 0)) req.hash
                req.context.val ::
              (match lk.regionExt with
               | some _ => [RespEv.reply (requesterNode chain) req.context.val]
               | none => [])))

/-- resolutionSucceeds abbreviates, for the statement of the theorem on the
responder, the condition under which a block and receipts are obtained: a
local hit with a usable receipts fetch, a PRIME external block on local
miss, or a REGION external block when the local and PRIME lookups miss. -/
def resolutionSucceeds (lk : MissingLookup) : Bool :=
  (lk.ownerBlock.isSome && !lk.ownerReceiptsErr && lk.ownerReceiptBlock.isSome) ||
    (lk.ownerBlock.isNone && lk.primeExt.isSome) ||
    (lk.ownerBlock.isNone && lk.primeExt.isNone && lk.regionExt.isSome)

/-- maxIntSentinel is big.NewInt(math.MaxInt) on a 64-bit build: the value
initializing the running minima of findBestLocation. -/
def maxIntSentinel : Int := 2 ^ 63 - 1

/-- bestStep (manager/main.go lines 1001-1029, the two loop bodies): one
iteration of the lowest-difficulty scan.  A failed head fetch is logged and
skipped; otherwise the candidate replaces the running minimum exactly when
its difficulty is strictly smaller (difficulty.Cmp(lowest) == -1, a signed
big-integer comparison), recording the 1-based index. -/
def bestStep (acc : Int × Nat) (idx1 : Nat) (d : Option Int) : Int × Nat :=
  match d with
  | none => acc
  | some v => if v < acc.1 then (v, idx1) else acc

/-- findBestLocation (manager/main.go lines 994-1040): scan the three region
heads for the lowest difficulty at slot 1, then the three zone heads of the
chosen region for the lowest difficulty at slot 2, both scans starting from
the sentinel and location 0.  When no region difficulty is strictly below
the sentinel the region location stays 0 and the source indexes
zoneClients[-1], an out-of-range panic, modelled as none.  The returned pair
is the low byte of each chosen 1-based index (PutUint64 then byte 0). -/
def findBestLocation (regionDiffs : Nat → Option Int)
    (zoneDiffs : Nat → Nat → Option Int) : Option (Nat × Nat) :=
  let r := bestStep (bestStep (bestStep (maxIntSentinel, 0) 1 (regionDiffs 0))
    2 (regionDiffs 1)) 3 (regionDiffs 2)
  if r.2 = 0 then none
  else
    let z := bestStep (bestStep (bestStep (maxIntSentinel, 0) 1
      (zoneDiffs (r.2 - 1) 0)) 2 (zoneDiffs (r.2 - 1) 1)) 3
      (zoneDiffs (r.2 - 1) 2)
    some (r.2 % 256, z.2 % 256)

/-- specFirstMinIndex follows the claim wording rather than the source: the
1-based index of the first of three values attaining their minimum. -/
def specFirstMinIndex (a b c : Int) : Nat :=
  if a ≤ b ∧ a ≤ c then 1 else if b ≤ c then 2 else 3

/-- firstMin3 a b c r states that r is the 1-based index of the first of the
three values a, b, c attaining their minimum. -/
def firstMin3 (a b c : Int) (r : Nat) : Prop :=
  (r = 1 ∧ a ≤ b ∧ a ≤ c) ∨ (r = 2 ∧ b < a ∧ b ≤ c) ∨
    (r = 3 ∧ c < a ∧ c < b)

/-- sentinelRegionDiffs has every region difficulty at or above the sentinel,
with region 1 strictly minimal. -/
def sentinelRegionDiffs : Nat → Option Int := fun i => some (maxIntSentinel + i)

/-- sentinelZoneDiffs gives ordinary small zone difficulties. -/
def sentinelZoneDiffs : Nat → Nat → Option Int := fun _ j => some (1 + j)

/-- wRd is a region difficulty assignment with the minimum at region 2. -/
def wRd : Nat → Option Int := fun i =>
  if i = 0 then some 10 else if i = 1 then some 5 else some 7

/-- wZd is a zone difficulty assignment with the minimum at zone 3. -/
def wZd : Nat → Nat → Option Int := fun _ j =>
  if j = 0 then some 4 else if j = 1 then some 9 else some 2

end QuaiManager

namespace QuaiManager

/-- C1: after updateCombinedHeader every per-tier field at slot i equals the
incoming value, the time is the maximum of the old and incoming times (hence
at least either), and the location is the coordinator location. -/
theorem updateCombinedHeader_slot_time_location
    (ch header : Header) (i : Fin 3) (loc : List Nat) :
    let ch' := updateCombinedHeader ch header i loc
    ch'.number i = header.number i ∧
    ch'.parentHash i = header.parentHash i ∧
    ch'.uncleHash i = header.uncleHash i ∧
    ch'.extra i = header.extra i ∧
    ch'.baseFee i = header.baseFee i ∧
    ch'.gasLimit i = header.gasLimit i ∧
    ch'.gasUsed i = header.gasUsed i ∧
    ch'.txHash i = header.txHash i ∧
    ch'.receiptHash i = header.receiptHash i ∧
    ch'.root i = header.root i ∧
    ch'.difficulty i = header.difficulty i ∧
    ch'.networkDifficulty i = header.networkDifficulty i ∧
    ch'.coinbase i = header.coinbase i ∧
    ch'.bloom i = header.bloom i ∧
    ch'.time = max ch.time header.time ∧
    header.time ≤ ch'.time ∧
    ch.time ≤ ch'.time ∧
    ch'.location = loc := by
  refine ⟨?_, ?_, ?_, ?_, ?_, ?_, ?_, ?_, ?_, ?_, ?_, ?_, ?_, ?_, ?_, ?_, ?_, ?_⟩ <;>
    simp [updateCombinedHeader, Function.update] <;>
    first
    | rfl
    | (split <;> omega)

end QuaiManager

namespace QuaiManager

/-- C3 (counterexample): with a combined header whose nonce is 1, delivering
a pending block leaves the combined nonce at 1, not the empty nonce, so the
update step does not clear the combined header's nonce. -/
theorem loopGlobalBlock_nonce_not_cleared :
    (loopGlobalBlockStep nonceOneState 0 sampleReceiptBlock).1.combinedHeader.nonce
      ≠ emptyNonce := by
  decide

/-- C3 (amended): one loopGlobalBlock delivery leaves the combined header's
nonce exactly as it was; the nonce that is set to the empty nonce is the one
on the local copy of the incoming block's header, which the step then
discards. -/
theorem loopGlobalBlock_nonce_behaviour (s : MState) (i : Fin 3)
    (block : ReceiptBlock) :
    (loopGlobalBlockStep s i block).1.combinedHeader.nonce =
      s.combinedHeader.nonce ∧
    (loopGlobalBlockStep s i block).2.nonce = emptyNonce := by
  constructor
  · simp [loopGlobalBlockStep, updateCombinedHeader]
  · simp [loopGlobalBlockStep]

/-- C9: the mining driver invokes engine.SealHeader on a consumed header
exactly when all three Number slots of the combined header are non-nil;
while any slot is nil no seal action is emitted. -/
theorem miningLoop_seal_iff (s : MState) (header : Header) :
    MiningEv.seal header ∈ miningLoopStep s header ↔
      ((s.combinedHeader.number 0).isSome ∧
       (s.combinedHeader.number 1).isSome ∧
       (s.combinedHeader.number 2).isSome) := by
  cases h0 : s.combinedHeader.number 0 <;>
    cases h1 : s.combinedHeader.number 1 <;>
    cases h2 : s.combinedHeader.number 2 <;>
    simp [miningLoopStep, headerNullCheck, h0, h1, h2]

/-- C7 (counterexample): at attempt 64 the float64 intermediate is 2 to the
63, above the int64 range, and with the amd64 conversion result
math.MinInt64 the computed delay is MinInt64: negative, so the 14400 clamp
does not fire and the subsequent time.Sleep of a negative duration sleeps
zero seconds, not the 14400 seconds the claim asserts for every attempt at
or above 16.  Attempt 64 is reachable: once the delay saturates at four
hours the loop refreshes lastUpdatedAt every iteration, so the twelve-hour
reset never fires during a persistent outage. -/
theorem backoff_delay_overflow_counterexample :
    delaySecs amd64OverflowInt64 64 = amd64OverflowInt64 ∧
    delaySecs amd64OverflowInt64 64 < 0 ∧
    delaySecs amd64OverflowInt64 64 ≠ 14400 := by
  refine ⟨by decide, by decide, by decide⟩

/-- C7 (amended): for every attempt count 1 ≤ n ≤ 63 the retry delay equals
the floor of half of one less than 2 to the n, clamped to 14400 seconds —
in particular 8191 at attempt 14 and 14400 from attempt 16 through 63 — and
after the twelve-hour reset the next attempt counter is 1 with delay 0.
From attempt 64 on the float64 intermediate overflows int64 and the delay
is the clamp of whatever value the implementation-dependent conversion
produces (on amd64 math.MinInt64, which the greater-than clamp passes
through as a negative, zero-length sleep). -/
theorem backoff_delay_spec (overflow : Int) :
    (∀ n : Nat, 1 ≤ n → n ≤ 63 →
      delaySecs overflow n = min (((2 : Int) ^ n - 1) / 2) 14400) ∧
    delaySecs overflow 14 = 8191 ∧
    (∀ n : Nat, 16 ≤ n → n ≤ 63 → delaySecs overflow n = 14400) ∧
    (∀ a : Nat, backoffAttempts a true = 1 ∧
      delaySecs overflow (backoffAttempts a true) = 0) ∧
    (∀ n : Nat, 64 ≤ n →
      delaySecs overflow n =
        if overflow > 14400 then 14400 else overflow) := by
  have hpow : ∀ k m : Nat, k ≤ m → (2 : Int) ^ k ≤ 2 ^ m := fun k m hkm =>
    pow_le_pow_right₀ (by norm_num) hkm
  have h53v : (2 : Int) ^ 53 = 9007199254740992 := by norm_num
  have h54v : (2 : Int) ^ 54 = 18014398509481984 := by norm_num
  have h62v : (2 : Int) ^ 62 = 4611686018427387904 := by norm_num
  have h63v : (2 : Int) ^ 63 = 9223372036854775808 := by norm_num
  have hgen : ∀ n : Nat, 1 ≤ n → n ≤ 63 →
      delaySecs overflow n = min (((2 : Int) ^ n - 1) / 2) 14400 := by
    intro n h1 h63
    by_cases h53 : n ≤ 53
    · have hn53 : (2 : Int) ^ n ≤ 2 ^ 53 := hpow n 53 h53
      simp only [delaySecs, floatDelayFloor, int64OfNonnegFloat,
        exponentialBackoffCeilingSecs, maxInt64]
      rw [if_pos h53,
        if_pos (show ((2 : Int) ^ n - 1) / 2 ≤ 2 ^ 63 - 1 by omega)]
      split <;> omega
    · have hlb : (2 : Int) ^ 53 ≤ 2 ^ (n - 1) := hpow 53 (n - 1) (by omega)
      have hub : (2 : Int) ^ (n - 1) ≤ 2 ^ 62 := hpow (n - 1) 62 (by omega)
      have hlb2 : (2 : Int) ^ 54 ≤ 2 ^ n := hpow 54 n (by omega)
      simp only [delaySecs, floatDelayFloor, int64OfNonnegFloat,
        exponentialBackoffCeilingSecs, maxInt64]
      rw [if_neg h53,
        if_pos (show (2 : Int) ^ (n - 1) ≤ 2 ^ 63 - 1 by omega)]
      split <;> omega
  refine ⟨hgen, ?_, ?_, ?_, ?_⟩
  · rw [hgen 14 (by norm_num) (by norm_num)]
    decide
  · intro n h16 h63
    have h16n : (2 : Int) ^ 16 ≤ 2 ^ n := hpow 16 n h16
    have h16v : (2 : Int) ^ 16 = 65536 := by norm_num
    rw [hgen n (by omega) h63]
    omega
  · intro a
    have hba : backoffAttempts a true = 1 := by simp [backoffAttempts]
    refine ⟨hba, ?_⟩
    rw [hba, hgen 1 (by norm_num) (by norm_num)]
    decide
  · intro n h64
    have hlb : (2 : Int) ^ 63 ≤ 2 ^ (n - 1) := hpow 63 (n - 1) (by omega)
    simp only [delaySecs, floatDelayFloor, int64OfNonnegFloat,
      exponentialBackoffCeilingSecs, maxInt64]
    rw [if_neg (show ¬n ≤ 53 by omega),
      if_neg (show ¬(2 : Int) ^ (n - 1) ≤ 2 ^ 63 - 1 by omega)]

/-- C7 (witness): backoff_delay_spec, with the amd64 overflow value, applied
at the concrete attempts 16, 1 and 64. -/
theorem backoff_delay_spec_witness :
    delaySecs amd64OverflowInt64 16 = 14400 ∧
    delaySecs amd64OverflowInt64 1 = min (((2 : Int) ^ 1 - 1) / 2) 14400 ∧
    delaySecs amd64OverflowInt64 64 =
      (if amd64OverflowInt64 > 14400 then 14400 else amd64OverflowInt64) :=
  ⟨(backoff_delay_spec amd64OverflowInt64).2.2.1 16 (by norm_num) (by norm_num),
   (backoff_delay_spec amd64OverflowInt64).1 1 (by norm_num) (by norm_num),
   (backoff_delay_spec amd64OverflowInt64).2.2.2.2 64 (by norm_num)⟩

end QuaiManager

namespace QuaiManager

/-- Helper: every send produced by SendClientsExtBlock is an external-block
send. -/
theorem mem_SendClientsExtBlock_isExt (s : MState) (m : Nat)
    (ecs bl : List Nat) :
    ∀ e ∈ SendClientsExtBlock s m ecs bl, Send.isExt e = true := by
  intro e he
  simp only [SendClientsExtBlock] at he
  split at he
  · simp at he
  · simp only [List.mem_append, List.mem_flatMap, List.mem_range] at he
    rcases he with (⟨ec, _, (h | h) | h⟩ | ⟨i, _, h⟩) | ⟨i, _, j, _, h⟩ <;>
      (split at h <;> simp_all [Send.isExt])

/-- Helper: every send produced by SendClientsMinedExtBlock is an
external-block send. -/
theorem mem_SendClientsMinedExtBlock_isExt (s : MState) (m : Fin 3)
    (ecs : List Nat) (hd : Header) :
    ∀ e ∈ SendClientsMinedExtBlock s m ecs hd, Send.isExt e = true := by
  intro e he
  unfold SendClientsMinedExtBlock at he
  cases hpb : s.pendingBlocks m with
  | none => rw [hpb] at he; simp at he
  | some rb =>
    rw [hpb] at he
    exact mem_SendClientsExtBlock_isExt _ _ _ _ e he

/-- Helper: every send produced by a successful SendMinedBlock is a sealed
mined-block send. -/
theorem SendMinedBlock_isMined (s : MState) (m : Fin 3) (hd : Header)
    (bs : List Send) (h : SendMinedBlock s m hd = some bs) :
    ∀ e ∈ bs, Send.isMined e = true := by
  unfold SendMinedBlock at h
  cases hpb : s.pendingBlocks m with
  | none => rw [hpb] at h; simp at h
  | some rb =>
    rw [hpb] at h
    simp only [Option.some.injEq] at h
    subst h
    intro e he
    by_cases hm0 : m = 0
    · rw [if_pos hm0] at he; simp_all [Send.isMined]
    · rw [if_neg hm0] at he
      by_cases hm1 : m = 1
      · rw [if_pos hm1] at he; simp_all [Send.isMined]
      · rw [if_neg hm1] at he; simp_all [Send.isMined]

/-- C2: for a solution processed while every chain is online, the dispatch
trace is at most two WaitGroup-joined groups run strictly in order under the
coordinator mutex: every send of the first group is a Phase-A external-block
send, every send of the second group is a Phase-B sealed-block send, and the
mutex is released only after the last group; hence all Phase-A sends
complete (the wg.Wait barrier) before the first Phase-B send begins. -/
theorem resultLoop_phase_separation (s : MState) (conn : Node → Bool)
    (bundle : HeaderBundle) (s1 : MState) (tr : DispatchTrace)
    (hon : allChainsOnline conn = true)
    (hstep : resultLoopStep s conn bundle = some (s1, tr)) :
    tr.groups.length ≤ 2 ∧
    (∀ e ∈ tr.groups.getD 0 [], Send.isExt e = true) ∧
    (∀ e ∈ tr.groups.getD 1 [], Send.isMined e = true) ∧
    tr.unlocked = true := by
  unfold resultLoopStep at hstep
  rw [hon] at hstep
  rw [if_neg (by simp)] at hstep
  by_cases hc0 : bundle.context = 0
  · rw [if_pos hc0] at hstep
    by_cases hn : (bundle.header.number 0).isSome
    · rw [if_pos hn] at hstep
      rcases hb2 : SendMinedBlock s 2 bundle.header with _ | b2
      · rw [hb2] at hstep; simp at hstep
      · rcases hb1 : SendMinedBlock s 1 bundle.header with _ | b1
        · rw [hb2, hb1] at hstep; simp at hstep
        · rcases hb0 : SendMinedBlock s 0 bundle.header with _ | b0
          · rw [hb2, hb1, hb0] at hstep; simp at hstep
          · rw [hb2, hb1, hb0] at hstep
            simp only [Option.some.injEq, Prod.mk.injEq] at hstep
            obtain ⟨hs1, htr⟩ := hstep
            subst htr
            refine ⟨by simp, ?_, ?_, rfl⟩
            · intro e he
              simp only [List.getD_cons_zero] at he
              rcases List.mem_append.mp he with h1 | h1
              · rcases List.mem_append.mp h1 with h2 | h2
                · exact mem_SendClientsMinedExtBlock_isExt _ _ _ _ e h2
                · exact mem_SendClientsMinedExtBlock_isExt _ _ _ _ e h2
              · exact mem_SendClientsMinedExtBlock_isExt _ _ _ _ e h1
            · intro e he
              simp only [List.getD_cons_succ, List.getD_cons_zero] at he
              rcases List.mem_append.mp he with h1 | h1
              · rcases List.mem_append.mp h1 with h2 | h2
                · exact SendMinedBlock_isMined s 2 bundle.header b2 hb2 e h2
                · exact SendMinedBlock_isMined s 1 bundle.header b1 hb1 e h2
              · exact SendMinedBlock_isMined s 0 bundle.header b0 hb0 e h1
    · rw [if_neg hn] at hstep
      simp only [Option.some.injEq, Prod.mk.injEq] at hstep
      obtain ⟨hs1, htr⟩ := hstep
      subst htr
      exact ⟨by simp, by simp, by simp, rfl⟩
  · rw [if_neg hc0] at hstep
    by_cases hc1 : bundle.context = 1
    · rw [if_pos hc1] at hstep
      by_cases hn : (bundle.header.number 1).isSome
      · rw [if_pos hn] at hstep
        rcases hb2 : SendMinedBlock s 2 bundle.header with _ | b2
        · rw [hb2] at hstep; simp at hstep
        · rcases hb1 : SendMinedBlock s 1 bundle.header with _ | b1
          · rw [hb2, hb1] at hstep; simp at hstep
          · rw [hb2, hb1] at hstep
            simp only [Option.some.injEq, Prod.mk.injEq] at hstep
            obtain ⟨hs1, htr⟩ := hstep
            subst htr
            refine ⟨by simp, ?_, ?_, rfl⟩
            · intro e he
              simp only [List.getD_cons_zero] at he
              rcases List.mem_append.mp he with h1 | h1
              · exact mem_SendClientsMinedExtBlock_isExt _ _ _ _ e h1
              · exact mem_SendClientsMinedExtBlock_isExt _ _ _ _ e h1
            · intro e he
              simp only [List.getD_cons_succ, List.getD_cons_zero] at he
              rcases List.mem_append.mp he with h1 | h1
              · exact SendMinedBlock_isMined s 2 bundle.header b2 hb2 e h1
              · exact SendMinedBlock_isMined s 1 bundle.header b1 hb1 e h1
      · rw [if_neg hn] at hstep
        simp only [Option.some.injEq, Prod.mk.injEq] at hstep
        obtain ⟨hs1, htr⟩ := hstep
        subst htr
        exact ⟨by simp, by simp, by simp, rfl⟩
    · rw [if_neg hc1] at hstep
      by_cases hc2 : bundle.context = 2
      · rw [if_pos hc2] at hstep
        by_cases hn : (bundle.header.number 2).isSome
        · rw [if_pos hn] at hstep
          rcases hb2 : SendMinedBlock s 2 bundle.header with _ | b2
          · rw [hb2] at hstep; simp at hstep
          · rw [hb2] at hstep
            simp only [Option.some.injEq, Prod.mk.injEq] at hstep
            obtain ⟨hs1, htr⟩ := hstep
            subst htr
            refine ⟨by simp, ?_, ?_, rfl⟩
            · intro e he
              simp only [List.getD_cons_zero] at he
              exact mem_SendClientsMinedExtBlock_isExt _ _ _ _ e he
            · intro e he
              simp only [List.getD_cons_succ, List.getD_cons_zero] at he
              exact SendMinedBlock_isMined s 2 bundle.header b2 hb2 e he
        · rw [if_neg hn] at hstep
          simp only [Option.some.injEq, Prod.mk.injEq] at hstep
          obtain ⟨hs1, htr⟩ := hstep
          subst htr
          exact ⟨by simp, by simp, by simp, rfl⟩
      · rw [if_neg hc2] at hstep
        simp only [Option.some.injEq, Prod.mk.injEq] at hstep
        obtain ⟨hs1, htr⟩ := hstep
        subst htr
        exact ⟨by simp, by simp, by simp, rfl⟩

end QuaiManager

namespace QuaiManager

/-- C2 (witness): resultLoop_phase_separation applied to the concrete
solution sampleBundle processed in baseState with every chain online. -/
theorem resultLoop_phase_separation_witness :
    ctx2Trace.groups.length ≤ 2 ∧
    (∀ e ∈ ctx2Trace.groups.getD 0 [], Send.isExt e = true) ∧
    (∀ e ∈ ctx2Trace.groups.getD 1 [], Send.isMined e = true) ∧
    ctx2Trace.unlocked = true :=
  resultLoop_phase_separation baseState onlineConn sampleBundle baseState
    ctx2Trace rfl rfl

/-- C6: if the connection check of any chain of the registry fails,
allChainsOnline is false and the result loop skips the solution entirely:
no external-block send, no sealed-block send, and the shared manager state
(combined header and pending blocks included) is returned unchanged. -/
theorem resultLoop_offline_skip (s : MState) (conn : Node → Bool)
    (bundle : HeaderBundle) (n : Node) (hn : registryChain n)
    (hoff : conn n = false) :
    allChainsOnline conn = false ∧
    resultLoopStep s conn bundle = some (s, ⟨[], false⟩) := by
  have hac : allChainsOnline conn = false := by
    rcases hn with rfl | ⟨i, hi, rfl⟩ | ⟨i, j, hi, hj, rfl⟩
    · simp [allChainsOnline, hoff]
    · rw [Bool.eq_false_iff]
      intro hall
      simp only [allChainsOnline, Bool.and_eq_true, List.all_eq_true,
        List.mem_range] at hall
      exact absurd (hall.1.2 i hi) (by simp [hoff])
    · rw [Bool.eq_false_iff]
      intro hall
      simp only [allChainsOnline, Bool.and_eq_true, List.all_eq_true,
        List.mem_range] at hall
      exact absurd (hall.2 i hi j hj) (by simp [hoff])
  refine ⟨hac, ?_⟩
  unfold resultLoopStep
  rw [hac]
  simp

/-- C6 (witness): resultLoop_offline_skip applied to baseState with a
connection oracle on which exactly zone (1, 2) is unreachable. -/
theorem resultLoop_offline_skip_witness :
    allChainsOnline offlineConn = false ∧
    resultLoopStep baseState offlineConn sampleBundle =
      some (baseState, ⟨[], false⟩) :=
  resultLoop_offline_skip baseState offlineConn sampleBundle (Node.zone 1 2)
    (Or.inr (Or.inr ⟨1, 2, by omega, by omega, rfl⟩)) (by decide)

/-- C10: SendMinedBlock dereferences the pending block of its tier before
any nil check, so it completes (isSome) exactly when that pending slot is
non-nil and panics on a nil slot; SendClientsMinedExtBlock instead guards on
the slot and sends nothing when it is nil. -/
theorem sendMinedBlock_nil_slot (s : MState) (t : Fin 3) (header : Header)
    (ecs : List Nat) :
    ((SendMinedBlock s t header).isSome ↔ (s.pendingBlocks t).isSome) ∧
    (s.pendingBlocks t = none →
      SendClientsMinedExtBlock s t ecs header = []) := by
  cases h : s.pendingBlocks t <;>
    simp [SendMinedBlock, SendClientsMinedExtBlock, h]

/-- C10 (witness): sendMinedBlock_nil_slot applied at a state with every
pending slot nil. -/
theorem sendMinedBlock_nil_slot_witness :
    SendClientsMinedExtBlock emptyPendingState 0 [1, 2] fullHeader = [] :=
  (sendMinedBlock_nil_slot emptyPendingState 0 fullHeader [1, 2]).2 rfl

end QuaiManager

namespace QuaiManager

/-- C4 (counterexample): a pending block whose tier-0 number is numerically
equal to the combined header's tier-0 number but is a distinct big.Int
object is NOT refetched: the Go == on the two pointers is false, so the
block is delivered immediately with no refetch, although the claim calls
this response stale and requires exactly one immediate refetch. -/
theorem fetchPendingBlocks_value_equal_not_refetched :
    ptrVal (valueStaleBlock.header.number 0) = ptrVal (staleCHeader.number 0) ∧
    fetchPendingBlocks staleCHeader 0 ⟨some valueStaleBlock, false⟩ freshRes =
      FetchOutcome.deliver valueStaleBlock false := by
  constructor
  · rfl
  · rfl

/-- C4 (amended): the stale check of fetchPendingBlocks compares the two
Number slots with Go pointer equality (the same big.Int object, or both
nil), not numeric equality.  Exactly one immediate refetch happens iff the
first response is non-nil, non-errored, and pointer-stale; a pointer-fresh
first response is delivered as is; after the single refetch a present,
non-errored second response is delivered; and the backoff retry loop is
entered exactly when the examined response is absent or errored. -/
theorem fetchPendingBlocks_stale_refetch (ch : Header) (i : Fin 3)
    (r1 r2 : FetchRes) :
    (fetchRefetched (fetchPendingBlocks ch i r1 r2) = true ↔
      (r1.err = false ∧ ∃ rb, r1.block = some rb ∧
        ptrEq (rb.header.number i) (ch.number i) = true)) ∧
    (∀ rb1, staleCheck ch i r1 = false → r1.block = some rb1 →
      r1.err = false →
      fetchPendingBlocks ch i r1 r2 = FetchOutcome.deliver rb1 false) ∧
    (∀ rb2, staleCheck ch i r1 = true → r2.block = some rb2 →
      r2.err = false →
      fetchPendingBlocks ch i r1 r2 = FetchOutcome.deliver rb2 true) ∧
    ((∃ f, fetchPendingBlocks ch i r1 r2 = FetchOutcome.backoff f) ↔
      ((if staleCheck ch i r1 then r2 else r1).block = none ∨
        (if staleCheck ch i r1 then r2 else r1).err = true)) := by
  rcases r1 with ⟨b1, e1⟩
  rcases r2 with ⟨b2, e2⟩
  cases b1 with
  | none =>
    cases b2 <;> cases e1 <;> cases e2 <;>
      simp [fetchPendingBlocks, staleCheck, fetchRefetched]
  | some rb1 =>
    cases hpe : ptrEq (rb1.header.number i) (ch.number i) <;>
      cases b2 <;> cases e1 <;> cases e2 <;>
      simp [fetchPendingBlocks, staleCheck, fetchRefetched, hpe]

/-- C4 (witness): fetchPendingBlocks_stale_refetch applied to a pointer-stale
first response followed by a fresh second response, which is delivered after
the single refetch. -/
theorem fetchPendingBlocks_stale_refetch_witness :
    fetchPendingBlocks staleCHeader 0 ⟨some ptrStaleBlock, false⟩ freshRes =
      FetchOutcome.deliver sampleReceiptBlock true :=
  (fetchPendingBlocks_stale_refetch staleCHeader 0
      ⟨some ptrStaleBlock, false⟩ freshRes).2.2.1 sampleReceiptBlock
    (by decide) rfl rfl

end QuaiManager

namespace QuaiManager

/-- C5: the responder resolves every request in exactly the prescribed
order: the probe subsequence of its event list is BlockByHash on the owner
of (context, location), then the PRIME external-block call exactly when the
owner lookup missed, then the call on the REGION at location byte 0 exactly
when PRIME also missed; and the reply subsequence is exactly one
SendExternalBlock to the requesting node, annotated with the request
context, when the resolution succeeded, and empty (drop, no retry) when all
lookups missed. -/
theorem missingExternalBlock_resolution (chain : List Nat)
    (req : MissingExternalBlock) (lk : MissingLookup) :
    (subscribeMissingExternalBlockClient chain req lk).filter RespEv.isProbe =
      RespEv.lookupOwner (ownerNode req.context req.location) req.hash ::
        ((if lk.ownerBlock.isNone then
            [RespEv.lookupPrimeExt req.hash req.context.val] else []) ++
          (if lk.ownerBlock.isNone && lk.primeExt.isNone then
            [RespEv.lookupRegionExt (byteSub1 (req.location.getD 0 0))
              req.hash req.context.val] else [])) ∧
    (subscribeMissingExternalBlockClient chain req lk).filter RespEv.isReply =
      (if resolutionSucceeds lk then
        [RespEv.reply (requesterNode chain) req.context.val] else []) := by
  rcases lk with ⟨ob, orb, oerr, pe, re⟩
  cases ob <;> cases orb <;> cases oerr <;> cases pe <;> cases re <;>
    simp [subscribeMissingExternalBlockClient, resolutionSucceeds,
      RespEv.isProbe, RespEv.isReply, List.filter]

end QuaiManager

namespace QuaiManager

/-- Helper: a three-step lowest-difficulty scan over present difficulties,
some of which is below the sentinel, computes the minimum value and the
1-based index of the first value attaining it. -/
theorem bestStep3_spec (a b c : Int)
    (h : a < maxIntSentinel ∨ b < maxIntSentinel ∨ c < maxIntSentinel) :
    bestStep (bestStep (bestStep (maxIntSentinel, 0) 1 (some a)) 2 (some b))
        3 (some c) = (min a (min b c), specFirstMinIndex a b c) := by
  simp only [bestStep]
  rcases lt_or_ge a maxIntSentinel with h1 | h1
  · rw [if_pos h1]
    dsimp only
    rcases lt_or_ge b a with h2 | h2
    · rw [if_pos h2]
      dsimp only
      rcases lt_or_ge c b with h3 | h3
      · rw [if_pos h3]
        simp only [Prod.mk.injEq, specFirstMinIndex]
        constructor
        · omega
        · split_ifs <;> omega
      · rw [if_neg (not_lt.mpr h3)]
        simp only [Prod.mk.injEq, specFirstMinIndex]
        constructor
        · omega
        · split_ifs <;> omega
    · rw [if_neg (not_lt.mpr h2)]
      dsimp only
      rcases lt_or_ge c a with h3 | h3
      · rw [if_pos h3]
        simp only [Prod.mk.injEq, specFirstMinIndex]
        constructor
        · omega
        · split_ifs <;> omega
      · rw [if_neg (not_lt.mpr h3)]
        simp only [Prod.mk.injEq, specFirstMinIndex]
        constructor
        · omega
        · split_ifs <;> omega
  · rw [if_neg (not_lt.mpr h1)]
    dsimp only
    rcases lt_or_ge b maxIntSentinel with h2 | h2
    · rw [if_pos h2]
      dsimp only
      rcases lt_or_ge c b with h3 | h3
      · rw [if_pos h3]
        simp only [Prod.mk.injEq, specFirstMinIndex]
        constructor
        · omega
        · split_ifs <;> omega
      · rw [if_neg (not_lt.mpr h3)]
        simp only [Prod.mk.injEq, specFirstMinIndex]
        constructor
        · omega
        · split_ifs <;> omega
    · rw [if_neg (not_lt.mpr h2)]
      dsimp only
      rcases lt_or_ge c maxIntSentinel with h3 | h3
      · rw [if_pos h3]
        simp only [Prod.mk.injEq, specFirstMinIndex]
        constructor
        · omega
        · split_ifs <;> omega
      · rw [if_neg (not_lt.mpr h3)]
        exact absurd h (by omega)

/-- Helper: specFirstMinIndex really is the 1-based index of the first of
the three values attaining their minimum. -/
theorem firstMin3_specFirstMinIndex (a b c : Int) :
    firstMin3 a b c (specFirstMinIndex a b c) := by
  unfold firstMin3 specFirstMinIndex
  split_ifs with hab hbc
  · exact Or.inl ⟨rfl, hab.1, hab.2⟩
  · exact Or.inr (Or.inl ⟨rfl, by omega, hbc⟩)
  · exact Or.inr (Or.inr ⟨rfl, by omega, by omega⟩)

/-- C8 (amended): when every head fetch succeeds and at least one region
difficulty, and one zone difficulty inside the chosen region, is strictly
below the big.NewInt(MaxInt) sentinel, findBestLocation returns (r, z) with
r the 1-based index of the first region attaining the minimum difficulty
under signed big-integer comparison and z likewise inside that region.
Without a region difficulty strictly below the sentinel no region is
selected and the source panics indexing zoneClients[-1]. -/
theorem findBestLocation_spec (rd : Nat → Option Int)
    (zd : Nat → Nat → Option Int) (a b c x y z : Int)
    (h0 : rd 0 = some a) (h1 : rd 1 = some b) (h2 : rd 2 = some c)
    (hr : a < maxIntSentinel ∨ b < maxIntSentinel ∨ c < maxIntSentinel)
    (hz0 : zd (specFirstMinIndex a b c - 1) 0 = some x)
    (hz1 : zd (specFirstMinIndex a b c - 1) 1 = some y)
    (hz2 : zd (specFirstMinIndex a b c - 1) 2 = some z)
    (hzm : x < maxIntSentinel ∨ y < maxIntSentinel ∨ z < maxIntSentinel) :
    findBestLocation rd zd =
      some (specFirstMinIndex a b c, specFirstMinIndex x y z) ∧
    firstMin3 a b c (specFirstMinIndex a b c) ∧
    firstMin3 x y z (specFirstMinIndex x y z) := by
  have hrange : specFirstMinIndex a b c = 1 ∨ specFirstMinIndex a b c = 2 ∨
      specFirstMinIndex a b c = 3 := by
    unfold specFirstMinIndex; split_ifs <;> omega
  have hzrange : specFirstMinIndex x y z = 1 ∨ specFirstMinIndex x y z = 2 ∨
      specFirstMinIndex x y z = 3 := by
    unfold specFirstMinIndex; split_ifs <;> omega
  refine ⟨?_, firstMin3_specFirstMinIndex a b c,
    firstMin3_specFirstMinIndex x y z⟩
  unfold findBestLocation
  rw [h0, h1, h2, bestStep3_spec a b c hr]
  dsimp only
  rw [if_neg (by omega)]
  rw [hz0, hz1, hz2, bestStep3_spec x y z hzm]
  dsimp only
  rw [Nat.mod_eq_of_lt (by omega), Nat.mod_eq_of_lt (by omega)]

/-- C8 (counterexample): with all region difficulties at or above the
sentinel big.NewInt(MaxInt) and region 1 strictly minimal, findBestLocation
does not return location (1, z) for any z: no region passes the strict
comparison against the sentinel, the region location stays 0, and the
source panics indexing zoneClients[-1] (modelled as none). -/
theorem findBestLocation_sentinel_counterexample :
    sentinelRegionDiffs 0 = some maxIntSentinel ∧
    sentinelRegionDiffs 1 = some (maxIntSentinel + 1) ∧
    sentinelRegionDiffs 2 = some (maxIntSentinel + 2) ∧
    findBestLocation sentinelRegionDiffs sentinelZoneDiffs = none := by
  refine ⟨by simp [sentinelRegionDiffs], by simp [sentinelRegionDiffs],
    by simp [sentinelRegionDiffs], ?_⟩
  decide

/-- C8 (witness): findBestLocation_spec applied to the concrete difficulty
assignments wRd and wZd, selecting region 2 and zone 3. -/
theorem findBestLocation_spec_witness :
    findBestLocation wRd wZd =
      some (specFirstMinIndex 10 5 7, specFirstMinIndex 4 9 2) ∧
    firstMin3 10 5 7 (specFirstMinIndex 10 5 7) ∧
    firstMin3 4 9 2 (specFirstMinIndex 4 9 2) :=
  findBestLocation_spec wRd wZd 10 5 7 4 9 2 rfl rfl rfl (by decide)
    rfl rfl rfl (by decide)

end QuaiManager
